import Mathlib

/-!
Verification of the `hpc_cluster` plotting helpers (`hpc_cluster/plotting.py`)
and the parameter-row extraction helper (`hpc_cluster/utils.py`).

The embedding works over the observable inputs of the code: a directory
listing is the list of immediate child directory names that `os.walk` yields
(in unspecified order), and the flattened parameter-grid CSV is the list of
records that `pandas.read_csv(...).to_dict("records")` produces.  Assertion
failures, the `ValueError` raised by `int(...)`, and the `UnboundLocalError`
in `AggregatePlot.__init__` are modelled with an explicit error type.
-/

/-- Numeric value of an ASCII digit character. -/
def digitVal (c : Char) : Nat := c.toNat - 48

/-- Whitespace characters stripped by Python `int(...)` (ASCII subset; the
sort-key inputs of this code contain no other whitespace). -/
def isPySpace (c : Char) : Bool :=
  c = ' ' || c = '\t' || c = '\n' || c = '\r' || c = '\x0b' || c = '\x0c'

/-- Main loop of Python `int(...)` on an unsigned numeral: after a digit,
further digits may be separated by single (non-leading, non-trailing,
non-doubled) underscores. -/
def pyIntAux : Nat → List Char → Option Nat
  | acc, [] => some acc
  | acc, [c] => if c.isDigit then some (acc * 10 + digitVal c) else none
  | acc, c :: d :: rest =>
    if c = '_' then
      if d.isDigit then pyIntAux (acc * 10 + digitVal d) rest else none
    else if c.isDigit then pyIntAux (acc * 10 + digitVal c) (d :: rest)
    else none

/-- Python `int(s)` on the strings the sort key feeds it: surrounding
whitespace is stripped, then an unsigned numeral is required; `none` models
the `ValueError` raised on anything else.  (A sign cannot occur here: every
input starts with a digit once the marker characters are deleted.) -/
def pyInt (cs : List Char) : Option Nat :=
  match ((cs.dropWhile isPySpace).reverse.dropWhile isPySpace).reverse with
  | [] => none
  | c :: rest => if c.isDigit then pyIntAux (digitVal c) rest else none

/-- The class attribute `data_dir_match_regexp = r"n[1-9]\d*"` as applied by
`re.match`, which anchors only at the START of the string: a name is accepted
as soon as it begins with the marker `n` followed by a nonzero digit (the
trailing `\d*` may match zero digits, and anything may follow the match). -/
def data_dir_match (s : String) : Bool :=
  match s.toList with
  | m :: c :: _ => m == 'n' && c.isDigit && c != '0'
  | _ => false

/-- Fully-anchored version of the naming pattern: the name is exactly the
marker `n` followed by a positive integer with no leading zero.  This is the
"qualifying directory" notion of the specification. -/
def qualifies (s : String) : Bool :=
  match s.toList with
  | m :: c :: rest => m == 'n' && c.isDigit && c != '0' && rest.all Char.isDigit
  | _ => false

/-- Sort key `int(relative_dir.name.replace("n", ""))`: every occurrence of
the marker character is deleted from the directory name and the remainder is
parsed as a Python int; `none` models the `ValueError` that `int` raises on a
non-numeric remainder (e.g. the name `n1abc`). -/
def sort_key (s : String) : Option Nat :=
  pyInt (s.toList.filter (fun c => c != 'n'))

/-- Total reading of the sort key, used once every key is known to parse. -/
def key0 (s : String) : Nat := (sort_key s).getD 0

/-- Value of a digit string most-significant-digit first, as `int` reads it. -/
def natOfDigits (cs : List Char) : Nat :=
  cs.foldl (fun a c => a * 10 + digitVal c) 0

/-- Errors escaping the constructors and helpers: `valueError` is the
`ValueError` from `int(...)` inside the sort key, `emptyDiscovery`,
`layoutTooSmall` and `layoutNotExact` are the three `assert` failures, and
`unboundLocal` is the `UnboundLocalError` in `AggregatePlot.__init__`. -/
inductive PlotError where
  | valueError
  | emptyDiscovery
  | layoutTooSmall
  | layoutNotExact
  | unboundLocal
deriving DecidableEq, Repr

/-- Insert into an ascending list, placing the new element before a resident
element only when it is strictly required to come earlier or ties are broken
in favour of the earlier-inserted element. -/
def insertLe (le : α → α → Bool) (a : α) : List α → List α
  | [] => [a]
  | b :: bs => if le a b then a :: b :: bs else b :: insertLe le a bs

/-- Python `sorted(l, key=...)` is the stable ascending sort of `l`; a stable
ascending sort is unique, and this structural insertion sort is one. -/
def pySorted (le : α → α → Bool) : List α → List α
  | [] => []
  | a :: l => insertLe le a (pySorted le l)

/-- Body of `GridPlot._find_data_dirs` / `AggregatePlot._find_data_dirs` over
the immediate child directory names of `experiment_dir` (the first `os.walk`
level, listed in unspecified order).  Names accepted by
`re.match(data_dir_match_regexp, name)` are collected; `sorted` evaluates the
integer key of every collected name — raising `ValueError` if any key fails —
and sorts ascending by key; the trailing `assert` fails when nothing was
collected. -/
def find_data_dirs (children : List String) : Except PlotError (List String) :=
  let matched := children.filter data_dir_match
  if matched.all (fun s => (sort_key s).isSome) then
    let sortedDirs := pySorted (fun a b => decide (key0 a ≤ key0 b)) matched
    if sortedDirs.isEmpty then .error .emptyDiscovery else .ok sortedDirs
  else .error .valueError

/-- Bounded upward search for the least `s ≥ start` with `n ≤ s * s`. -/
def ceil_sqrt_go (n : Nat) : Nat → Nat → Nat
  | s, 0 => s
  | s, fuel + 1 => if n ≤ s * s then s else ceil_sqrt_go n (s + 1) fuel

/-- Python `math.ceil(math.sqrt n)` on an integer operand: the least integer
`s` with `n ≤ s * s`, computed exactly on the integers (for the item counts
this code sees the float round trip is exact). -/
def ceil_sqrt (n : Nat) : Nat := ceil_sqrt_go n 0 n

/-- Python `math.ceil(a / b)` on nonnegative integer operands with `b > 0`
(the code divides only by a caller-supplied row or column count). -/
def ceil_div (a b : Nat) : Nat := (a + b - 1) / b

/-- `GridPlot._autoset_layout`: when both `nrows` and `ncols` are `None` both
become the ceiling square root of the item count; when exactly one is `None`
it becomes `div + math.ceil(rem / given)` with `div, rem = divmod(count,
given)`; explicitly supplied dimensions are used unchanged. -/
def autoset_layout (nDataDirs : Nat) (nrows ncols : Option Nat) : Nat × Nat :=
  match nrows, ncols with
  | none, none => (ceil_sqrt nDataDirs, ceil_sqrt nDataDirs)
  | none, some c => (nDataDirs / c + ceil_div (nDataDirs % c) c, c)
  | some r, none => (r, nDataDirs / r + ceil_div (nDataDirs % r) r)
  | some r, some c => (r, c)

/-- `GridPlot._check_layout`: asserts `nrows * ncols >= len(data_dirs)`
unconditionally, and only afterwards, when `force_balanced_layout` is set,
asserts `nrows * ncols == len(data_dirs)`. -/
def check_layout (nrows ncols nDataDirs : Nat) (forceBalanced : Bool) :
    Except PlotError Unit :=
  if nrows * ncols < nDataDirs then .error .layoutTooSmall
  else if forceBalanced && decide (nrows * ncols ≠ nDataDirs) then .error .layoutNotExact
  else .ok ()

/-- State established by `GridPlot.__init__` that the later methods read (the
callbacks and title are opaque to the logic verified here). -/
structure GridPlot where
  data_dirs : List String
  nrows : Nat
  ncols : Nat
  force_balanced_layout : Bool
deriving DecidableEq, Repr

/-- `GridPlot.__init__` beyond storing the callbacks: `_find_data_dirs`, then
`_autoset_layout` on the number of discovered directories, then
`_check_layout`; any assertion failure escapes from the constructor. -/
def mkGridPlot (children : List String) (nrows ncols : Option Nat)
    (forceBalanced : Bool) : Except PlotError GridPlot :=
  match find_data_dirs children with
  | .error e => .error e
  | .ok dirs =>
    let rc := autoset_layout dirs.length nrows ncols
    match check_layout rc.1 rc.2 dirs.length forceBalanced with
    | .error e => .error e
    | .ok _ => .ok { data_dirs := dirs, nrows := rc.1, ncols := rc.2,
                     force_balanced_layout := forceBalanced }

/-- Row-major cell coordinates of `ax.ravel()` for an `nrows × ncols` subplot
grid: C ordering, so the row index varies slowest. -/
def ravel_cells (nrows ncols : Nat) : List (Nat × Nat) :=
  (List.range (nrows * ncols)).map (fun i => (i / ncols, i % ncols))

/-- Cell assignment performed by `GridPlot.plot`: the loop
`for data_dir, axis in zip(self.data_dirs, self.ax.ravel())` invokes the
plotting callback once per listed pair, in list order. -/
def plot_assignments (g : GridPlot) : List (String × (Nat × Nat)) :=
  g.data_dirs.zip (ravel_cells g.nrows g.ncols)

/-- State established by `AggregatePlot.__init__` that the later methods read. -/
structure AggregatePlotState where
  internal_fig : Bool
  data_dirs : List String
  plotted : Bool
deriving DecidableEq, Repr

/-- `AggregatePlot.__init__`: the local `fig` is bound only inside the
`if ax is None` branch, yet `self.fig = fig` executes unconditionally, so a
caller-supplied axis makes the constructor read an unbound local.  Discovery
runs only after that assignment, and `self._plotted` starts out `False`. -/
def mkAggregatePlot (children : List String) (axProvided : Bool) :
    Except PlotError AggregatePlotState :=
  let figLocal : Option Unit := if axProvided then none else some ()
  match figLocal with
  | none => .error .unboundLocal
  | some _ =>
    match find_data_dirs children with
    | .error e => .error e
    | .ok dirs => .ok { internal_fig := !axProvided, data_dirs := dirs, plotted := false }

/-- Observable effect of one `AggregatePlot` instance across method calls:
how many times the full load/preprocess/aggregate/draw pass (`plot`) has run
and how many times the figure was serialized (`fig.savefig`). -/
structure AggRun where
  state : AggregatePlotState
  plotRuns : Nat
  saves : Nat
deriving DecidableEq, Repr

/-- `AggregatePlot.plot`: runs `_preprocess_data`, `_aggregate_data` and the
drawing callback.  Faithfully to the source it does NOT assign
`self._plotted` (contrast `GridPlot.plot`, whose body ends with
`self._plotted = True`). -/
def aggregate_plot_step (s : AggRun) : AggRun :=
  { s with plotRuns := s.plotRuns + 1 }

/-- `AggregatePlot.savefig`: when the figure is external it only warns and
returns; otherwise it first runs `plot()` when `_plotted` is false, then
saves. -/
def aggregate_savefig_step (s : AggRun) : AggRun :=
  if !s.state.internal_fig then s
  else if !s.state.plotted then
    let s2 := aggregate_plot_step s
    { s2 with saves := s2.saves + 1 }
  else { s with saves := s.saves + 1 }

/-- One record of the flattened parameter-grid CSV, as produced by
`df.to_dict("records")` after `index_col=0` consumed the index column: a
mapping from column name to cell value. -/
def ParamRow : Type := List (String × String)

instance : DecidableEq ParamRow := by
  unfold ParamRow
  infer_instance

/-- Errors of `extract_csv_to_dict`: the `assert extract_line > 0` failure,
an unreadable grid file, and a row index past the end of the records list. -/
inductive ExtractError where
  | nonPositiveLine
  | readError
  | lineOutOfRange
deriving DecidableEq, Repr

/-- `extract_csv_to_dict`: asserts `extract_line > 0` BEFORE `pd.read_csv`
touches the file (`none` models a file that cannot be read), then returns the
1-indexed record `df.to_dict("records")[extract_line - 1]`. -/
def extract_csv_to_dict (file : Option (List ParamRow)) (extractLine : Int) :
    Except ExtractError ParamRow :=
  if extractLine ≤ 0 then .error .nonPositiveLine
  else
    match file with
    | none => .error .readError
    | some records =>
      match records[(extractLine - 1).toNat]? with
      | none => .error .lineOutOfRange
      | some r => .ok r

/-! Generic facts about the stable insertion sort used to model `sorted`. -/

theorem insertLe_perm {α : Type} (le : α → α → Bool) (a : α) (l : List α) :
    (insertLe le a l).Perm (a :: l) := by
  induction l with
  | nil => simp [insertLe]
  | cons b bs ih =>
    by_cases h : le a b = true
    · simp [insertLe, h]
    · simp only [insertLe, if_neg h]
      exact (ih.cons b).trans (List.Perm.swap a b bs)

theorem pySorted_perm {α : Type} (le : α → α → Bool) (l : List α) :
    (pySorted le l).Perm l := by
  induction l with
  | nil => simp [pySorted]
  | cons a l ih =>
    exact (insertLe_perm le a (pySorted le l)).trans (ih.cons a)

theorem mem_insertLe {α : Type} {le : α → α → Bool} {a x : α} {l : List α} :
    x ∈ insertLe le a l ↔ x = a ∨ x ∈ l := by
  rw [(insertLe_perm le a l).mem_iff, List.mem_cons]

theorem pairwise_insertLe {α : Type} {le : α → α → Bool}
    (htrans : ∀ x y z, le x y = true → le y z = true → le x z = true)
    (htotal : ∀ x y, le x y = true ∨ le y x = true)
    (a : α) (l : List α) (hl : l.Pairwise (fun x y => le x y = true)) :
    (insertLe le a l).Pairwise (fun x y => le x y = true) := by
  induction l with
  | nil => simp [insertLe]
  | cons b bs ih =>
    rcases List.pairwise_cons.mp hl with ⟨hb, hbs⟩
    by_cases h : le a b = true
    · simp only [insertLe, if_pos h]
      refine List.pairwise_cons.mpr ⟨?_, hl⟩
      intro x hx
      rcases List.mem_cons.mp hx with rfl | hx
      · exact h
      · exact htrans a b x h (hb x hx)
    · simp only [insertLe, if_neg h]
      refine List.pairwise_cons.mpr ⟨?_, ih hbs⟩
      intro x hx
      rcases mem_insertLe.mp hx with hxa | hx
      · rw [hxa]
        rcases htotal a b with hab | hba
        · exact absurd hab h
        · exact hba
      · exact hb x hx

theorem pairwise_pySorted {α : Type} {le : α → α → Bool}
    (htrans : ∀ x y z, le x y = true → le y z = true → le x z = true)
    (htotal : ∀ x y, le x y = true ∨ le y x = true) (l : List α) :
    (pySorted le l).Pairwise (fun x y => le x y = true) := by
  induction l with
  | nil => simp [pySorted]
  | cons a l ih => exact pairwise_insertLe htrans htotal a (pySorted le l) ih

/-! Arithmetic of digit strings, used to show that the sort key of a
fully-matching directory name is exactly its task number. -/

theorem toNat_of_isDigit {c : Char} (h : c.isDigit = true) :
    48 ≤ c.toNat ∧ c.toNat ≤ 57 := by
  simp [Char.isDigit] at h
  exact h

theorem char_toNat_inj {c d : Char} (h : c.toNat = d.toNat) : c = d := by
  have hc := Char.ofNat_toNat c
  rw [← hc, h, Char.ofNat_toNat]

theorem digitVal_le_nine {c : Char} (h : c.isDigit = true) : digitVal c ≤ 9 := by
  obtain ⟨h1, h2⟩ := toNat_of_isDigit h
  unfold digitVal
  omega

theorem digitVal_pos {c : Char} (h : c.isDigit = true) (h0 : c ≠ '0') :
    1 ≤ digitVal c := by
  obtain ⟨h1, h2⟩ := toNat_of_isDigit h
  have : c.toNat ≠ 48 := by
    intro he
    exact h0 (char_toNat_inj (he.trans (by decide)))
  unfold digitVal
  omega

theorem foldl_digits_shift (cs : List Char) (a : Nat) :
    cs.foldl (fun x c => x * 10 + digitVal c) a
      = a * 10 ^ cs.length + cs.foldl (fun x c => x * 10 + digitVal c) 0 := by
  induction cs generalizing a with
  | nil => simp
  | cons c t ih =>
    simp only [List.foldl_cons, List.length_cons]
    rw [ih (a * 10 + digitVal c), ih (0 * 10 + digitVal c)]
    ring

theorem natOfDigits_cons (c : Char) (t : List Char) :
    natOfDigits (c :: t) = digitVal c * 10 ^ t.length + natOfDigits t := by
  simp only [natOfDigits, List.foldl_cons]
  rw [foldl_digits_shift t (0 * 10 + digitVal c)]
  ring

theorem natOfDigits_lt (cs : List Char) (h : ∀ c ∈ cs, c.isDigit = true) :
    natOfDigits cs < 10 ^ cs.length := by
  induction cs with
  | nil => simp [natOfDigits]
  | cons c t ih =>
    have hv : digitVal c ≤ 9 := digitVal_le_nine (h c (List.mem_cons_self c t))
    have ht : natOfDigits t < 10 ^ t.length :=
      ih (fun x hx => h x (List.mem_cons_of_mem c hx))
    rw [natOfDigits_cons, List.length_cons]
    calc digitVal c * 10 ^ t.length + natOfDigits t
        < digitVal c * 10 ^ t.length + 10 ^ t.length := by omega
      _ = (digitVal c + 1) * 10 ^ t.length := by ring
      _ ≤ 10 * 10 ^ t.length := mul_le_mul_right' (by omega) _
      _ = 10 ^ (t.length + 1) := by ring

theorem pow_le_natOfDigits (c : Char) (t : List Char) (hc : c.isDigit = true)
    (h0 : c ≠ '0') : 10 ^ t.length ≤ natOfDigits (c :: t) := by
  have hv : 1 ≤ digitVal c := digitVal_pos hc h0
  rw [natOfDigits_cons]
  calc (10:Nat) ^ t.length = 1 * 10 ^ t.length := by ring
    _ ≤ digitVal c * 10 ^ t.length := mul_le_mul_right' hv _
    _ ≤ digitVal c * 10 ^ t.length + natOfDigits t := Nat.le_add_right _ _

theorem natOfDigits_inj_of_length (cs : List Char) :
    ∀ ds : List Char, cs.length = ds.length →
      (∀ c ∈ cs, c.isDigit = true) → (∀ c ∈ ds, c.isDigit = true) →
      natOfDigits cs = natOfDigits ds → cs = ds := by
  induction cs with
  | nil =>
    intro ds hlen _ _ _
    cases ds with
    | nil => rfl
    | cons d u => simp at hlen
  | cons c t ih =>
    intro ds hlen hct hds hv
    cases ds with
    | nil => simp at hlen
    | cons d u =>
      have hlen' : t.length = u.length := by simpa using hlen
      have hcd : c.isDigit = true := hct c (List.mem_cons_self c t)
      have hdd : d.isDigit = true := hds d (List.mem_cons_self d u)
      have htd : ∀ x ∈ t, x.isDigit = true :=
        fun x hx => hct x (List.mem_cons_of_mem c hx)
      have hud : ∀ x ∈ u, x.isDigit = true :=
        fun x hx => hds x (List.mem_cons_of_mem d hx)
      have h1 : natOfDigits t < 10 ^ u.length := by
        rw [← hlen']; exact natOfDigits_lt t htd
      have h2 : natOfDigits u < 10 ^ u.length := natOfDigits_lt u hud
      rw [natOfDigits_cons, natOfDigits_cons, hlen'] at hv
      have hBpos : 0 < 10 ^ u.length := Nat.pos_pow_of_pos _ (by omega)
      have hdiv := congrArg (fun x => x / 10 ^ u.length) hv
      simp only at hdiv
      rw [Nat.mul_comm (digitVal c) _, Nat.mul_comm (digitVal d) _,
        Nat.mul_add_div hBpos, Nat.mul_add_div hBpos,
        Nat.div_eq_of_lt h1, Nat.div_eq_of_lt h2] at hdiv
      have hvals : digitVal c = digitVal d := by omega
      have hchar : c = d := by
        obtain ⟨hc1, hc2⟩ := toNat_of_isDigit hcd
        obtain ⟨hd1, hd2⟩ := toNat_of_isDigit hdd
        apply char_toNat_inj
        unfold digitVal at hvals
        omega
      have htail : natOfDigits t = natOfDigits u := by
        rw [hvals] at hv
        omega
      rw [hchar, ih u hlen' htd hud htail]

theorem natOfDigits_numeral_inj (c d : Char) (t u : List Char)
    (hcd : c.isDigit = true) (hc0 : c ≠ '0') (htd : ∀ x ∈ t, x.isDigit = true)
    (hdd : d.isDigit = true) (hd0 : d ≠ '0') (hud : ∀ x ∈ u, x.isDigit = true)
    (hv : natOfDigits (c :: t) = natOfDigits (d :: u)) : c :: t = d :: u := by
  have hmain : ∀ a b : List Char, a.length < b.length →
      (∀ x ∈ a, x.isDigit = true) → ∀ e, e.isDigit = true → e ≠ '0' →
      (∀ x ∈ b, x.isDigit = true) → b = e :: b.tail →
      natOfDigits a < natOfDigits b := by
    intro a b hab ha e hed he0 hb hbe
    have h1 : natOfDigits a < 10 ^ a.length := natOfDigits_lt a ha
    have h2 : 10 ^ b.tail.length ≤ natOfDigits b := by
      rw [hbe]
      refine pow_le_natOfDigits e b.tail hed he0
    have hlen : a.length ≤ b.tail.length := by
      have : b.tail.length = b.length - 1 := by simp
      omega
    have h3 : (10:Nat) ^ a.length ≤ 10 ^ b.tail.length :=
      Nat.pow_le_pow_right (by omega) hlen
    omega
  rcases Nat.lt_trichotomy (c :: t).length (d :: u).length with hlt | heq | hgt
  · have := hmain (c :: t) (d :: u) hlt
      (by intro x hx; rcases List.mem_cons.mp hx with hxc | hx
          · rw [hxc]; exact hcd
          · exact htd x hx)
      d hdd hd0
      (by intro x hx; rcases List.mem_cons.mp hx with hxd | hx
          · rw [hxd]; exact hdd
          · exact hud x hx)
      rfl
    omega
  · exact natOfDigits_inj_of_length (c :: t) (d :: u) heq
      (by intro x hx; rcases List.mem_cons.mp hx with hxc | hx
          · rw [hxc]; exact hcd
          · exact htd x hx)
      (by intro x hx; rcases List.mem_cons.mp hx with hxd | hx
          · rw [hxd]; exact hdd
          · exact hud x hx)
      hv
  · have := hmain (d :: u) (c :: t) hgt
      (by intro x hx; rcases List.mem_cons.mp hx with hxd | hx
          · rw [hxd]; exact hdd
          · exact hud x hx)
      c hcd hc0
      (by intro x hx; rcases List.mem_cons.mp hx with hxc | hx
          · rw [hxc]; exact hcd
          · exact htd x hx)
      rfl
    omega

/-! Facts connecting the sort key with qualifying directory names. -/

theorem digit_ne_marker {c : Char} (h : c.isDigit = true) : (c != 'n') = true := by
  obtain ⟨_, h2⟩ := toNat_of_isDigit h
  simp only [bne_iff_ne, ne_eq]
  intro he
  rw [he] at h2
  exact absurd h2 (by decide)

theorem digit_not_pyspace {c : Char} (h : c.isDigit = true) : isPySpace c = false := by
  obtain ⟨h1, _⟩ := toNat_of_isDigit h
  unfold isPySpace
  simp only [Bool.or_eq_false_iff, decide_eq_false_iff_not]
  refine ⟨⟨⟨⟨⟨?_, ?_⟩, ?_⟩, ?_⟩, ?_⟩, ?_⟩ <;>
    · intro he; rw [he] at h1; exact absurd h1 (by decide)

theorem digit_ne_underscore {c : Char} (h : c.isDigit = true) : c ≠ '_' := by
  obtain ⟨_, h2⟩ := toNat_of_isDigit h
  intro he
  rw [he] at h2
  exact absurd h2 (by decide)

theorem dropWhile_of_no_space (l : List Char) (h : ∀ x ∈ l, isPySpace x = false) :
    l.dropWhile isPySpace = l := by
  cases l with
  | nil => rfl
  | cons c t =>
    rw [List.dropWhile_cons, h c (List.mem_cons_self c t)]
    simp

theorem pyIntAux_digits : ∀ (cs : List Char) (a : Nat),
    (∀ x ∈ cs, x.isDigit = true) →
    pyIntAux a cs = some (cs.foldl (fun x c => x * 10 + digitVal c) a)
  | [], a, _ => rfl
  | [c], a, h => by
    have hcd : c.isDigit = true := h c (List.mem_cons_self c [])
    simp [pyIntAux, hcd]
  | c :: d :: rest, a, h => by
    have hcd : c.isDigit = true := h c (List.mem_cons_self c (d :: rest))
    have hrest : ∀ x ∈ d :: rest, x.isDigit = true :=
      fun x hx => h x (List.mem_cons_of_mem c hx)
    simp only [pyIntAux]
    rw [if_neg (digit_ne_underscore hcd), if_pos hcd,
      pyIntAux_digits (d :: rest) (a * 10 + digitVal c) hrest]
    simp

theorem pyInt_digits (c : Char) (t : List Char) (hcd : c.isDigit = true)
    (htd : ∀ x ∈ t, x.isDigit = true) :
    pyInt (c :: t) = some (natOfDigits (c :: t)) := by
  have hall : ∀ x ∈ c :: t, isPySpace x = false := by
    intro x hx
    rcases List.mem_cons.mp hx with hxc | hx
    · rw [hxc]; exact digit_not_pyspace hcd
    · exact digit_not_pyspace (htd x hx)
  have hallrev : ∀ x ∈ (c :: t).reverse, isPySpace x = false := by
    intro x hx
    exact hall x (List.mem_reverse.mp hx)
  unfold pyInt
  rw [dropWhile_of_no_space _ hall, dropWhile_of_no_space _ hallrev,
    List.reverse_reverse]
  simp only [if_pos hcd]
  rw [pyIntAux_digits t (digitVal c) htd]
  simp only [natOfDigits, List.foldl_cons]
  norm_num

theorem qualifies_spec (s : String) (h : qualifies s = true) :
    ∃ c rest, s.toList = 'n' :: c :: rest ∧ c.isDigit = true ∧ c ≠ '0' ∧
      (∀ x ∈ rest, x.isDigit = true) ∧
      sort_key s = some (natOfDigits (c :: rest)) := by
  unfold qualifies at h
  match hs : s.toList with
  | [] => rw [hs] at h; simp at h
  | [m] => rw [hs] at h; simp at h
  | m :: c :: rest =>
    rw [hs] at h
    simp only [Bool.and_eq_true, beq_iff_eq, bne_iff_ne, ne_eq,
      List.all_eq_true] at h
    obtain ⟨⟨⟨hm, hcd⟩, hc0⟩, hrest⟩ := h
    subst hm
    refine ⟨c, rest, rfl, hcd, hc0, hrest, ?_⟩
    unfold sort_key
    rw [hs]
    have hr : List.filter (fun x => x != 'n') rest = rest :=
      List.filter_eq_self.mpr (fun x hx => digit_ne_marker (hrest x hx))
    have hfil : List.filter (fun x => x != 'n') ('n' :: c :: rest) = c :: rest := by
      simp [List.filter_cons, digit_ne_marker hcd, hr]
    rw [hfil]
    exact pyInt_digits c rest hcd hrest

theorem key0_of_qualifies (s : String) (h : qualifies s = true) :
    ∃ c rest, s.toList = 'n' :: c :: rest ∧ c.isDigit = true ∧ c ≠ '0' ∧
      (∀ x ∈ rest, x.isDigit = true) ∧ key0 s = natOfDigits (c :: rest) := by
  obtain ⟨c, rest, h1, h2, h3, h4, h5⟩ := qualifies_spec s h
  exact ⟨c, rest, h1, h2, h3, h4, by unfold key0; rw [h5]; rfl⟩

theorem sort_key_isSome_of_qualifies (s : String) (h : qualifies s = true) :
    (sort_key s).isSome = true := by
  obtain ⟨c, rest, _, _, _, _, h5⟩ := qualifies_spec s h
  rw [h5]
  rfl

theorem key0_inj_on_qualifies {a b : String} (ha : qualifies a = true)
    (hb : qualifies b = true) (h : key0 a = key0 b) : a = b := by
  obtain ⟨c, t, hal, hcd, hc0, htd, hak⟩ := key0_of_qualifies a ha
  obtain ⟨d, u, hbl, hdd, hd0, hud, hbk⟩ := key0_of_qualifies b hb
  have hv : natOfDigits (c :: t) = natOfDigits (d :: u) := by
    rw [← hak, ← hbk, h]
  have hcons := natOfDigits_numeral_inj c d t u hcd hc0 htd hdd hd0 hud hv
  apply String.ext
  have h1 : a.toList = b.toList := by rw [hal, hbl, hcons]
  exact h1

/-! Characterizations of `find_data_dirs`. -/

theorem key_le_trans : ∀ x y z : String, decide (key0 x ≤ key0 y) = true →
    decide (key0 y ≤ key0 z) = true → decide (key0 x ≤ key0 z) = true := by
  intro x y z h1 h2
  simp only [decide_eq_true_eq] at h1 h2 ⊢
  omega

theorem key_le_total : ∀ x y : String,
    decide (key0 x ≤ key0 y) = true ∨ decide (key0 y ≤ key0 x) = true := by
  intro x y
  simp only [decide_eq_true_eq]
  omega

theorem find_data_dirs_eq_ok {children : List String}
    (hall : (children.filter data_dir_match).all
      (fun s => (sort_key s).isSome) = true)
    (hne : (pySorted (fun a b => decide (key0 a ≤ key0 b))
      (children.filter data_dir_match)).isEmpty = false) :
    find_data_dirs children = .ok (pySorted (fun a b => decide (key0 a ≤ key0 b))
      (children.filter data_dir_match)) := by
  simp only [find_data_dirs]
  rw [if_pos hall, hne]
  simp

theorem find_data_dirs_ok_perm {children dirs : List String}
    (h : find_data_dirs children = .ok dirs) :
    dirs.Perm (children.filter data_dir_match) ∧ dirs ≠ [] := by
  simp only [find_data_dirs] at h
  by_cases hall : (children.filter data_dir_match).all
      (fun s => (sort_key s).isSome) = true
  · rw [if_pos hall] at h
    by_cases hemp : (pySorted (fun a b => decide (key0 a ≤ key0 b))
        (children.filter data_dir_match)).isEmpty = true
    · rw [if_pos hemp] at h
      exact Except.noConfusion h
    · rw [if_neg hemp] at h
      injection h with h2
      subst h2
      refine ⟨pySorted_perm _ _, ?_⟩
      intro hnil
      rw [hnil] at hemp
      exact hemp rfl
  · rw [if_neg hall] at h
    exact Except.noConfusion h

theorem find_data_dirs_ok_of_qualifies {children : List String}
    (hq : ∀ s ∈ children, data_dir_match s = true → qualifies s = true)
    (hnd : children.Nodup)
    (hk : 1 ≤ (children.filter data_dir_match).length) :
    ∃ dirs, find_data_dirs children = .ok dirs ∧
      dirs.Perm (children.filter data_dir_match) ∧
      dirs.Pairwise (fun a b => key0 a < key0 b) := by
  have hqm : ∀ s ∈ children.filter data_dir_match, qualifies s = true := by
    intro s hsm
    obtain ⟨hmem, hmatch⟩ := List.mem_filter.mp hsm
    exact hq s hmem hmatch
  have hall : (children.filter data_dir_match).all
      (fun s => (sort_key s).isSome) = true :=
    List.all_eq_true.mpr (fun s hs => sort_key_isSome_of_qualifies s (hqm s hs))
  have hperm : (pySorted (fun a b => decide (key0 a ≤ key0 b))
      (children.filter data_dir_match)).Perm (children.filter data_dir_match) :=
    pySorted_perm _ _
  have hne : (pySorted (fun a b => decide (key0 a ≤ key0 b))
      (children.filter data_dir_match)).isEmpty = false := by
    cases hsrte : (pySorted (fun a b => decide (key0 a ≤ key0 b))
        (children.filter data_dir_match)).isEmpty
    · rfl
    · exfalso
      have hnil := List.isEmpty_iff.mp hsrte
      have hlen := hperm.length_eq
      rw [hnil] at hlen
      simp at hlen
      omega
  have hqs : ∀ s ∈ pySorted (fun a b => decide (key0 a ≤ key0 b))
      (children.filter data_dir_match), qualifies s = true :=
    fun s hs => hqm s (hperm.mem_iff.mp hs)
  have hnd_srt : (pySorted (fun a b => decide (key0 a ≤ key0 b))
      (children.filter data_dir_match)).Nodup :=
    (hperm.symm).nodup (hnd.filter data_dir_match)
  have hple := pairwise_pySorted key_le_trans key_le_total
    (children.filter data_dir_match)
  have hplt : (pySorted (fun a b => decide (key0 a ≤ key0 b))
      (children.filter data_dir_match)).Pairwise
      (fun a b => key0 a < key0 b) := by
    have hcomb := List.Pairwise.and hple hnd_srt
    refine List.Pairwise.imp_of_mem ?_ hcomb
    intro a b ha hb hab
    obtain ⟨hle, hne'⟩ := hab
    simp only [decide_eq_true_eq] at hle
    rcases Nat.lt_or_ge (key0 a) (key0 b) with h | h
    · exact h
    · have heq : key0 a = key0 b := by omega
      exact absurd (key0_inj_on_qualifies (hqs a ha) (hqs b hb) heq) hne'
  exact ⟨_, find_data_dirs_eq_ok hall hne, hperm, hplt⟩

theorem find_data_dirs_nil_filter {children : List String}
    (h : children.filter data_dir_match = []) :
    find_data_dirs children = .error .emptyDiscovery := by
  simp only [find_data_dirs, h]
  simp [pySorted]

theorem pairwise_lt_head_min {l : List String}
    (h : l.Pairwise (fun a b => key0 a < key0 b)) (h0 : 0 < l.length) :
    ∀ d ∈ l, key0 (l.get ⟨0, h0⟩) ≤ key0 d := by
  cases l with
  | nil => simp at h0
  | cons x tl =>
    intro d hd
    rcases List.mem_cons.mp hd with hdh | hdt
    · rw [hdh]
      exact Nat.le_refl _
    · exact Nat.le_of_lt (List.rel_of_pairwise_cons h hdt)

/-- C1 (amended): for a directory listing with distinct names in which every
name accepted by the prefix pattern also matches it fully, discovery succeeds
and returns exactly the matching directories, sorted strictly ascending by
the integer extracted from the name, independently of the order in which the
filesystem lists the children; index 0 holds the smallest task number.  (The
unamended claim fails when a child name merely begins with the pattern, e.g.
`n1abc`: see the counterexample.) -/
theorem grid_discovery_sorted (children : List String)
    (hnd : children.Nodup)
    (hq : ∀ s ∈ children, data_dir_match s = true → qualifies s = true)
    (hk : 1 ≤ (children.filter data_dir_match).length) :
    ∃ dirs, find_data_dirs children = .ok dirs ∧
      dirs.length = (children.filter data_dir_match).length ∧
      dirs.Perm (children.filter data_dir_match) ∧
      dirs.Pairwise (fun a b => key0 a < key0 b) ∧
      (∀ other : List String, other.Perm children →
        find_data_dirs other = find_data_dirs children) ∧
      ∀ h0 : 0 < dirs.length, ∀ d ∈ dirs, key0 (dirs.get ⟨0, h0⟩) ≤ key0 d := by
  obtain ⟨dirs, hok, hperm, hplt⟩ := find_data_dirs_ok_of_qualifies hq hnd hk
  refine ⟨dirs, hok, hperm.length_eq, hperm, hplt, ?_, ?_⟩
  · intro other hop
    obtain ⟨dirs2, hok2, hperm2, hplt2⟩ := find_data_dirs_ok_of_qualifies
      (fun s hs hm => hq s (hop.mem_iff.mp hs) hm)
      ((hop.symm).nodup hnd)
      (by rw [(hop.filter data_dir_match).length_eq]; exact hk)
    have hpp : dirs2.Perm dirs :=
      hperm2.trans ((hop.filter data_dir_match).trans hperm.symm)
    haveI : IsAntisymm String (fun a b => key0 a < key0 b) :=
      ⟨fun a b h1 h2 => absurd h2 (Nat.lt_asymm h1)⟩
    have heq : dirs2 = dirs := List.eq_of_perm_of_sorted hpp hplt2 hplt
    rw [hok2, hok, heq]
  · exact fun h0 => pairwise_lt_head_min hplt h0

/-- C1 witness: a concrete four-entry listing (three task directories listed
out of order plus an unrelated `logs` directory) satisfies the hypotheses of
`grid_discovery_sorted`. -/
theorem grid_discovery_sorted_witness :
    ∃ dirs, find_data_dirs ["n10", "n2", "n1", "logs"] = .ok dirs ∧
      dirs.length = (["n10", "n2", "n1", "logs"].filter data_dir_match).length ∧
      dirs.Perm (["n10", "n2", "n1", "logs"].filter data_dir_match) ∧
      dirs.Pairwise (fun a b => key0 a < key0 b) ∧
      (∀ other : List String, other.Perm ["n10", "n2", "n1", "logs"] →
        find_data_dirs other = find_data_dirs ["n10", "n2", "n1", "logs"]) ∧
      ∀ h0 : 0 < dirs.length, ∀ d ∈ dirs, key0 (dirs.get ⟨0, h0⟩) ≤ key0 d :=
  grid_discovery_sorted ["n10", "n2", "n1", "logs"]
    (by decide) (by decide) (by decide)

/-- C1 counterexample: the root with children `n1` and `n1abc` has exactly one
child matching the full task pattern (and two matching the prefix pattern the
code actually applies), yet discovery raises `ValueError` from the sort key
`int("1abc")` instead of returning the matching entries. -/
theorem grid_discovery_sorted_counterexample :
    (["n1", "n1abc"].filter qualifies).length = 1 ∧
    (["n1", "n1abc"].filter data_dir_match).length = 2 ∧
    find_data_dirs ["n1", "n1abc"] = .error .valueError :=
  ⟨by decide, by decide, rfl⟩

/-- C5 (amended): with zero children matching the naming pattern AS THE CODE
APPLIES IT — no child name begins with the marker and a nonzero digit —
discovery always fails with the empty-discovery assertion rather than
returning an empty list, and the failure surfaces from both presenter
constructors; moreover discovery can never succeed with an empty result.
(The unamended claim — zero children matching the fully anchored pattern —
fails when a child such as `n2x` prefix-matches: discovery then raises
`ValueError` instead of the empty-discovery error; see the counterexample.) -/
theorem discovery_empty_error (children : List String)
    (h : children.filter data_dir_match = []) :
    find_data_dirs children = .error .emptyDiscovery ∧
    (∀ cs dirs : List String, find_data_dirs cs = .ok dirs → 0 < dirs.length) ∧
    (∀ nrows ncols : Option Nat, ∀ fb : Bool,
      mkGridPlot children nrows ncols fb = .error .emptyDiscovery) ∧
    mkAggregatePlot children false = .error .emptyDiscovery := by
  have h1 := find_data_dirs_nil_filter h
  refine ⟨h1, ?_, ?_, ?_⟩
  · intro cs dirs hok
    obtain ⟨_, hne⟩ := find_data_dirs_ok_perm hok
    cases dirs with
    | nil => exact absurd rfl hne
    | cons a l => simp
  · intro nrows ncols fb
    unfold mkGridPlot
    rw [h1]
  · simp [mkAggregatePlot, h1]

/-- C5 witness: a listing of three directories, none of which matches the
task pattern, gives the empty-discovery error everywhere. -/
theorem discovery_empty_error_witness :
    (["results", "x1", "m2"].filter data_dir_match = []) ∧
    (find_data_dirs ["results", "x1", "m2"] = .error .emptyDiscovery ∧
      (∀ cs dirs : List String, find_data_dirs cs = .ok dirs → 0 < dirs.length) ∧
      (∀ nrows ncols : Option Nat, ∀ fb : Bool,
        mkGridPlot ["results", "x1", "m2"] nrows ncols fb
          = .error .emptyDiscovery) ∧
      mkAggregatePlot ["results", "x1", "m2"] false = .error .emptyDiscovery) :=
  ⟨by decide, discovery_empty_error ["results", "x1", "m2"] (by decide)⟩

/-- C5 counterexample: the root whose only child is `n2x` has zero
subdirectories matching the fully anchored task pattern, yet discovery fails
with `ValueError` from the sort key `int("2x")`, not with the
empty-discovery error. -/
theorem discovery_empty_error_counterexample :
    (["n2x"].filter qualifies) = [] ∧
    find_data_dirs ["n2x"] = .error .valueError ∧
    find_data_dirs ["n2x"] ≠ .error .emptyDiscovery := by
  refine ⟨by decide, rfl, ?_⟩
  intro h
  rw [show find_data_dirs ["n2x"] = Except.error PlotError.valueError from rfl] at h
  injection h with h2
  exact PlotError.noConfusion h2

/-- C6 (amended): a child directory whose name does not even begin with the
marker pattern is ignored by discovery — dropping it from the listing does
not change the result, and it can never appear in a successful result.  (The
unamended claim — that every name failing the FULL pattern is skipped without
error — fails on names such as `n1abc` that begin with the pattern: see the
counterexample.) -/
theorem discovery_ignores_unmatched (children : List String) (s : String)
    (hs : data_dir_match s = false) :
    find_data_dirs (s :: children) = find_data_dirs children ∧
    ∀ dirs, find_data_dirs children = .ok dirs → s ∉ dirs := by
  have hfil : (s :: children).filter data_dir_match
      = children.filter data_dir_match := by
    simp [List.filter_cons, hs]
  constructor
  · simp only [find_data_dirs, hfil]
  · intro dirs hok hmem
    obtain ⟨hperm, _⟩ := find_data_dirs_ok_perm hok
    have hf : s ∈ children.filter data_dir_match := hperm.mem_iff.mp hmem
    have hm := (List.mem_filter.mp hf).2
    rw [hs] at hm
    exact Bool.noConfusion hm

/-- C6 witness: `task3` does not begin with the marker pattern, so it is
skipped without affecting discovery of `n1`. -/
theorem discovery_ignores_unmatched_witness :
    data_dir_match "task3" = false ∧
    (find_data_dirs ["task3", "n1"] = find_data_dirs ["n1"] ∧
      ∀ dirs, find_data_dirs ["n1"] = .ok dirs → "task3" ∉ dirs) :=
  ⟨by decide, discovery_ignores_unmatched ["n1"] "task3" (by decide)⟩

/-- C6 counterexample: `n1abc` fails the full task pattern, yet discovery
does not skip it — it is collected by the prefix match and the run fails with
`ValueError`, and its presence changes the discovery result. -/
theorem discovery_ignores_unmatched_counterexample :
    qualifies "n1abc" = false ∧
    find_data_dirs ["n1abc"] = .error .valueError ∧
    find_data_dirs ["n1abc", "n1"] ≠ find_data_dirs ["n1"] := by
  refine ⟨by decide, rfl, ?_⟩
  intro h
  rw [show find_data_dirs ["n1abc", "n1"]
      = Except.error PlotError.valueError from rfl,
    show find_data_dirs ["n1"] = Except.ok ["n1"] from rfl] at h
  exact Except.noConfusion h

/-! Layout arithmetic. -/

theorem ceil_sqrt_go_spec (n : Nat) :
    ∀ fuel s, n ≤ (s + fuel) * (s + fuel) →
      n ≤ ceil_sqrt_go n s fuel * ceil_sqrt_go n s fuel ∧
      ∀ t, s ≤ t → n ≤ t * t → ceil_sqrt_go n s fuel ≤ t := by
  intro fuel
  induction fuel with
  | zero =>
    intro s hs
    constructor
    · simpa [ceil_sqrt_go] using hs
    · intro t hst _
      simpa [ceil_sqrt_go] using hst
  | succ fuel ih =>
    intro s hs
    by_cases h : n ≤ s * s
    · constructor
      · simp [ceil_sqrt_go, h]
      · intro t hst _
        simpa [ceil_sqrt_go, h] using hst
    · have hgo : ceil_sqrt_go n s (fuel + 1) = ceil_sqrt_go n (s + 1) fuel := by
        simp [ceil_sqrt_go, h]
      have hs2 : n ≤ (s + 1 + fuel) * (s + 1 + fuel) := by
        have he : s + 1 + fuel = s + (fuel + 1) := by omega
        rw [he]
        exact hs
      obtain ⟨h1, h2⟩ := ih (s + 1) hs2
      rw [hgo]
      refine ⟨h1, fun t hst hnt => ?_⟩
      rcases Nat.eq_or_lt_of_le hst with heq | hlt
      · exact absurd (heq ▸ hnt) h
      · exact h2 t hlt hnt

theorem ceil_sqrt_spec (n : Nat) :
    n ≤ ceil_sqrt n * ceil_sqrt n ∧ ∀ s, n ≤ s * s → ceil_sqrt n ≤ s := by
  have hbase : n ≤ (0 + n) * (0 + n) := by
    rcases Nat.eq_zero_or_pos n with rfl | hpos
    · simp
    · simpa using Nat.le_mul_of_pos_left n hpos
  obtain ⟨h1, h2⟩ := ceil_sqrt_go_spec n n 0 hbase
  exact ⟨h1, fun s hs => h2 s (Nat.zero_le s) hs⟩

theorem rows_for_cols_spec (n c : Nat) (hc : 1 ≤ c) :
    n ≤ (n / c + ceil_div (n % c) c) * c ∧
    ∀ r, n ≤ r * c → n / c + ceil_div (n % c) c ≤ r := by
  have hcpos : 0 < c := hc
  rcases Nat.eq_zero_or_pos (n % c) with hrem | hrem
  · have hcd : ceil_div (n % c) c = 0 := by
      rw [hrem]
      unfold ceil_div
      exact Nat.div_eq_of_lt (by omega)
    have hdvd : n / c * c = n := Nat.div_mul_cancel (Nat.dvd_of_mod_eq_zero hrem)
    rw [hcd, Nat.add_zero]
    constructor
    · rw [hdvd]
    · intro r hr
      have h1 : n / c ≤ r * c / c := Nat.div_le_div_right hr
      rwa [Nat.mul_div_cancel r hcpos] at h1
  · have hremlt : n % c < c := Nat.mod_lt n hcpos
    have hcd : ceil_div (n % c) c = 1 := by
      unfold ceil_div
      have he : n % c + c - 1 = (n % c - 1) + c := by omega
      rw [he, Nat.add_div_right _ hcpos, Nat.div_eq_of_lt (by omega)]
    have hiden : c * (n / c) + n % c = n := Nat.div_add_mod n c
    rw [hcd]
    constructor
    · have he : (n / c + 1) * c = c * (n / c) + c := by ring
      rw [he]
      omega
    · intro r hr
      have hlt : n < r * c := by
        rcases Nat.eq_or_lt_of_le hr with heq | hlt
        · exfalso
          have hmod : n % c = 0 := by
            rw [heq]
            exact Nat.mul_mod_left r c
          omega
        · exact hlt
      have := (Nat.div_lt_iff_lt_mul hcpos).mpr hlt
      omega

/-- C2: with both dimensions omitted the layout is the ceiling square root of
the item count on both axes (hence `rows * cols >= item_count`); with only
`ncols` given, `nrows` is `floor(n / c) + ceil((n mod c) / c)`, which is the
minimum row count whose grid holds all items (symmetrically for a given
`nrows`); and item_count 10 with `ncols = 3` yields 4 rows. -/
theorem autoset_layout_spec (n : Nat) (_hn : 1 ≤ n) :
    (autoset_layout n none none = (ceil_sqrt n, ceil_sqrt n) ∧
      n ≤ ceil_sqrt n * ceil_sqrt n ∧
      ∀ s : Nat, n ≤ s * s → ceil_sqrt n ≤ s) ∧
    (∀ c, 1 ≤ c →
      autoset_layout n none (some c) = (n / c + ceil_div (n % c) c, c) ∧
      n ≤ (n / c + ceil_div (n % c) c) * c ∧
      ∀ r, n ≤ r * c → n / c + ceil_div (n % c) c ≤ r) ∧
    (∀ r, 1 ≤ r →
      autoset_layout n (some r) none = (r, n / r + ceil_div (n % r) r) ∧
      n ≤ r * (n / r + ceil_div (n % r) r) ∧
      ∀ c, n ≤ r * c → n / r + ceil_div (n % r) r ≤ c) ∧
    autoset_layout 10 none (some 3) = (4, 3) := by
  obtain ⟨hs1, hs2⟩ := ceil_sqrt_spec n
  refine ⟨⟨rfl, hs1, hs2⟩, ?_, ?_, by decide⟩
  · intro c hc
    obtain ⟨h1, h2⟩ := rows_for_cols_spec n c hc
    exact ⟨rfl, h1, h2⟩
  · intro r hr
    obtain ⟨h1, h2⟩ := rows_for_cols_spec n r hr
    refine ⟨rfl, ?_, ?_⟩
    · rw [Nat.mul_comm]
      exact h1
    · intro c hc
      refine h2 c ?_
      rw [Nat.mul_comm]
      exact hc

/-- C2 witness: the layout arithmetic at item_count 10. -/
theorem autoset_layout_spec_witness :
    1 ≤ 10 ∧
    ((autoset_layout 10 none none = (ceil_sqrt 10, ceil_sqrt 10) ∧
      10 ≤ ceil_sqrt 10 * ceil_sqrt 10 ∧
      ∀ s : Nat, 10 ≤ s * s → ceil_sqrt 10 ≤ s) ∧
    (∀ c, 1 ≤ c →
      autoset_layout 10 none (some c) = (10 / c + ceil_div (10 % c) c, c) ∧
      10 ≤ (10 / c + ceil_div (10 % c) c) * c ∧
      ∀ r, 10 ≤ r * c → 10 / c + ceil_div (10 % c) c ≤ r) ∧
    (∀ r, 1 ≤ r →
      autoset_layout 10 (some r) none = (r, 10 / r + ceil_div (10 % r) r) ∧
      10 ≤ r * (10 / r + ceil_div (10 % r) r) ∧
      ∀ c, 10 ≤ r * c → 10 / r + ceil_div (10 % r) r ≤ c) ∧
    autoset_layout 10 none (some 3) = (4, 3)) :=
  ⟨by decide, autoset_layout_spec 10 (by decide)⟩

/-- C3: a layout with fewer cells than discovered directories fails with the
too-small assertion in both strict and non-strict modes: the unconditional
size check precedes the strict exact-match check, so strict mode also reports
the too-small error and the exact-match check is never reached. -/
theorem check_layout_too_small (nrows ncols nDataDirs : Nat)
    (h : nrows * ncols < nDataDirs) :
    ∀ fb : Bool, check_layout nrows ncols nDataDirs fb
      = .error .layoutTooSmall := by
  intro fb
  unfold check_layout
  rw [if_pos h]

/-- C3 witness: a 2 by 2 grid for five items. -/
theorem check_layout_too_small_witness :
    2 * 2 < 5 ∧
    check_layout 2 2 5 true = .error .layoutTooSmall ∧
    check_layout 2 2 5 false = .error .layoutTooSmall :=
  ⟨by decide, check_layout_too_small 2 2 5 (by decide) true,
    check_layout_too_small 2 2 5 (by decide) false⟩

/-- C4: a grid with enough but not exactly as many cells as items fails the
strict check under `force_balanced_layout` and passes without it; an exactly
filled grid passes in both modes. -/
theorem check_layout_strict (nrows ncols nDataDirs : Nat)
    (hge : nDataDirs ≤ nrows * ncols) :
    (nrows * ncols ≠ nDataDirs →
      check_layout nrows ncols nDataDirs true = .error .layoutNotExact ∧
      check_layout nrows ncols nDataDirs false = .ok ()) ∧
    (nrows * ncols = nDataDirs →
      ∀ fb : Bool, check_layout nrows ncols nDataDirs fb = .ok ()) := by
  have hnl : ¬ nrows * ncols < nDataDirs := by omega
  constructor
  · intro hne
    constructor
    · unfold check_layout
      rw [if_neg hnl]
      simp [hne]
    · unfold check_layout
      rw [if_neg hnl]
      simp
  · intro heq fb
    unfold check_layout
    rw [if_neg hnl]
    simp [heq]

/-- C4 witness: 3 by 4 cells for ten items, and 3 by 3 cells for nine. -/
theorem check_layout_strict_witness :
    (10 ≤ 3 * 4 ∧ 3 * 4 ≠ 10 ∧
      check_layout 3 4 10 true = .error .layoutNotExact ∧
      check_layout 3 4 10 false = .ok ()) ∧
    (9 ≤ 3 * 3 ∧ 3 * 3 = 9 ∧
      check_layout 3 3 9 true = .ok () ∧
      check_layout 3 3 9 false = .ok ()) :=
  ⟨⟨by decide, by decide,
    ((check_layout_strict 3 4 10 (by decide)).1 (by decide)).1,
    ((check_layout_strict 3 4 10 (by decide)).1 (by decide)).2⟩,
   ⟨by decide, by decide,
    (check_layout_strict 3 3 9 (by decide)).2 (by decide) true,
    (check_layout_strict 3 3 9 (by decide)).2 (by decide) false⟩⟩

theorem map_snd_zip_take {α β : Type} : ∀ (l₁ : List α) (l₂ : List β),
    (l₁.zip l₂).map Prod.snd = l₂.take l₁.length
  | [], l₂ => by simp
  | _ :: l₁, [] => by simp
  | a :: l₁, b :: l₂ => by
    simp [List.zip_cons_cons, map_snd_zip_take l₁ l₂]

/-- C7: `plot` pairs the discovered directories with the raveled cells, so
the drawing callback runs exactly once per directory, in discovery order,
on cells consumed in row-major order from (0,0); cells past the number of
directories receive no assignment.  Concretely, three tasks under the default
layout give a 2 by 2 grid with cells (0,0), (0,1), (1,0) drawn in task order
and cell (1,1) left blank. -/
theorem grid_plot_row_major (dirs : List String) (r c : Nat) (fb : Bool)
    (hrc : dirs.length ≤ r * c) :
    (plot_assignments ⟨dirs, r, c, fb⟩).length = dirs.length ∧
    (plot_assignments ⟨dirs, r, c, fb⟩).map Prod.fst = dirs ∧
    (∀ j, ∀ hj : j < (plot_assignments ⟨dirs, r, c, fb⟩).length,
      ((plot_assignments ⟨dirs, r, c, fb⟩).get ⟨j, hj⟩).2 = (j / c, j % c)) ∧
    (∀ cell ∈ (ravel_cells r c).drop dirs.length,
      cell ∉ (plot_assignments ⟨dirs, r, c, fb⟩).map Prod.snd) ∧
    mkGridPlot ["n2", "n3", "n1"] none none false =
      .ok ⟨["n1", "n2", "n3"], 2, 2, false⟩ ∧
    plot_assignments ⟨["n1", "n2", "n3"], 2, 2, false⟩ =
      [("n1", (0, 0)), ("n2", (0, 1)), ("n3", (1, 0))] ∧
    ((1, 1) : Nat × Nat) ∉
      (plot_assignments ⟨["n1", "n2", "n3"], 2, 2, false⟩).map Prod.snd := by
  have hcl : (ravel_cells r c).length = r * c := by
    simp [ravel_cells]
  have hlen : (plot_assignments ⟨dirs, r, c, fb⟩).length = dirs.length := by
    simp only [plot_assignments, List.length_zip, hcl]
    omega
  refine ⟨hlen, ?_, ?_, ?_, rfl, by decide, by decide⟩
  · exact List.map_fst_zip dirs (ravel_cells r c) (by rw [hcl]; exact hrc)
  · intro j hj
    have hj' : j < dirs.length := by rw [hlen] at hj; exact hj
    have hjc : j < (ravel_cells r c).length := by omega
    simp only [plot_assignments, List.get_eq_getElem, List.getElem_zip]
    show (ravel_cells r c)[j] = (j / c, j % c)
    simp [ravel_cells]
  · intro cell hdrop hmem
    simp only [plot_assignments] at hmem
    rw [map_snd_zip_take dirs (ravel_cells r c)] at hmem
    by_cases hc0 : c = 0
    · subst hc0
      have hd0 : dirs.length = 0 := by
        have : r * 0 = 0 := Nat.mul_zero r
        omega
      rw [hd0] at hmem
      simp at hmem
    · have hcpos : 0 < c := Nat.pos_of_ne_zero hc0
      have hinj : Function.Injective (fun i : Nat => (i / c, i % c)) := by
        intro i j hij
        simp only [Prod.mk.injEq] at hij
        obtain ⟨h1, h2⟩ := hij
        have hi := Nat.div_add_mod i c
        have hj := Nat.div_add_mod j c
        rw [h1, h2] at hi
        omega
      have hnodup : (ravel_cells r c).Nodup :=
        List.Nodup.map hinj (List.nodup_range (r * c))
      exact List.disjoint_take_drop hnodup (Nat.le_refl dirs.length) hmem hdrop

/-- C7 witness: the three-task default-layout scenario. -/
theorem grid_plot_row_major_witness :
    (plot_assignments ⟨["n1", "n2", "n3"], 2, 2, false⟩).length = 3 ∧
    (plot_assignments ⟨["n1", "n2", "n3"], 2, 2, false⟩).map Prod.fst
      = ["n1", "n2", "n3"] ∧
    (∀ cell ∈ (ravel_cells 2 2).drop 3,
      cell ∉ (plot_assignments ⟨["n1", "n2", "n3"], 2, 2, false⟩).map Prod.snd) ∧
    mkGridPlot ["n2", "n3", "n1"] none none false =
      .ok ⟨["n1", "n2", "n3"], 2, 2, false⟩ := by
  obtain ⟨h1, h2, _, h4, h5, _, _⟩ :=
    grid_plot_row_major ["n1", "n2", "n3"] 2 2 false (by decide)
  exact ⟨h1, h2, h4, h5⟩

/-- C8 (code-bug evidence): `AggregatePlot.plot` never assigns
`self._plotted` (its body ends with the drawing callback), so `_plotted`
stays false and every `savefig` on an owned figure re-runs the entire
load/preprocess/aggregate/draw pass: after two `savefig` calls the pass has
run twice, where the claim requires it to have run once. -/
theorem aggregate_savefig_reruns :
    mkAggregatePlot ["n1"] false = .ok ⟨true, ["n1"], false⟩ ∧
    (aggregate_plot_step ⟨⟨true, ["n1"], false⟩, 0, 0⟩).state.plotted = false ∧
    aggregate_savefig_step ⟨⟨true, ["n1"], false⟩, 0, 0⟩
      = ⟨⟨true, ["n1"], false⟩, 1, 1⟩ ∧
    aggregate_savefig_step (aggregate_savefig_step ⟨⟨true, ["n1"], false⟩, 0, 0⟩)
      = ⟨⟨true, ["n1"], false⟩, 2, 2⟩ :=
  ⟨rfl, rfl, rfl, rfl⟩

/-- C9: row extraction rejects a non-positive 1-indexed row before the grid
file is ever read (the assertion precedes `pd.read_csv`, so it fires even on
an unreadable file), and `extract_line = 1` returns the first data row. -/
theorem extract_line_boundary (file : Option (List ParamRow))
    (extractLine : Int) :
    (extractLine ≤ 0 →
      extract_csv_to_dict file extractLine = .error .nonPositiveLine) ∧
    (∀ (row : ParamRow) (rows : List ParamRow),
      extract_csv_to_dict (some (row :: rows)) 1 = .ok row) := by
  constructor
  · intro h
    unfold extract_csv_to_dict
    rw [if_pos h]
  · intro row rows
    unfold extract_csv_to_dict
    rw [if_neg (by omega : ¬ (1 : Int) ≤ 0)]
    simp

/-- C9 witness: extraction fails at lines 0 and -3 (even with no readable
file), and line 1 yields the first record. -/
theorem extract_line_boundary_witness :
    ((0 : Int) ≤ 0 ∧
      extract_csv_to_dict none 0 = .error .nonPositiveLine) ∧
    ((-3 : Int) ≤ 0 ∧
      extract_csv_to_dict (some [[("lr", "0.1")]]) (-3)
        = .error .nonPositiveLine) ∧
    extract_csv_to_dict (some [[("lr", "0.1")], [("lr", "0.2")]]) 1
      = .ok [("lr", "0.1")] :=
  ⟨⟨by decide, (extract_line_boundary none 0).1 (by decide)⟩,
   ⟨by decide,
    (extract_line_boundary (some [[("lr", "0.1")]]) (-3)).1 (by decide)⟩,
   (extract_line_boundary none 1).2 [("lr", "0.1")] [[("lr", "0.2")]]⟩

/-- C10: constructing `AggregatePlot` with a caller-supplied axis always
reads the unbound local `fig` at `self.fig = fig` (bound only in the
`ax is None` branch), so for every directory listing the constructor raises
and the documented borrowed-surface mode is unreachable through it. -/
theorem aggregate_init_unbound_local (children : List String) :
    mkAggregatePlot children true = .error .unboundLocal := rfl
